/-
Verification of the route-computation and caching subsystem of MS-USER-PY.

Shallow embedding conventions:
* Python `int` is modelled by `Int` (database ids, seller ids, shopkeeper ids).
* Python `float`/`Decimal` quantities that the claims reason about are
  modelled by `ℚ`; `round(x, 2)` is modelled by decimal round-half-to-even
  (Python's rounding mode) on `ℚ`.
* `datetime.now()` is passed in explicitly as an `Int` time parameter;
  `timedelta` values (ages, TTL) are `Int` differences, so a negative age
  compares exactly as in Python.
* The SHA-256 digest used by `RouteCache._generate_key` is implemented
  bit-faithfully below over `Nat` (words are kept `< 2^32` by explicit
  `% 2^32`), so key equalities and inequalities are decided by actually
  hashing.
* `math.sin`/`cos`/`atan2`-based `calculate_distance` (haversine) is
  transcendental floating-point code; the planner functions take the
  distance function as an explicit parameter, and every theorem about the
  planner holds for (or exhibits) an arbitrary such function.
-/
import Mathlib

attribute [local semireducible] Rat.inv Rat.mul Rat.add Rat.sub

namespace MSUser

/-! ## SHA-256 over `Nat` (words kept below `2^32` by explicit `%`) -/

/-- The word modulus of SHA-256, `2^32`. -/
def M32 : Nat := 4294967296

/-- Right-rotation of a 32-bit word expressed arithmetically. -/
def rotr (n x : Nat) : Nat := x / 2 ^ n + x % 2 ^ n * 2 ^ (32 - n)

/-- Bitwise complement within 32 bits (argument assumed `< 2^32`). -/
def bnot32 (x : Nat) : Nat := (M32 - 1) - x % M32

/-- SHA-256 `Ch` function. -/
def ch (x y z : Nat) : Nat := (x &&& y) ^^^ (bnot32 x &&& z)

/-- SHA-256 `Maj` function. -/
def maj (x y z : Nat) : Nat := (x &&& y) ^^^ (x &&& z) ^^^ (y &&& z)

/-- SHA-256 Σ₀. -/
def bigSigma0 (x : Nat) : Nat := rotr 2 x ^^^ rotr 13 x ^^^ rotr 22 x

/-- SHA-256 Σ₁. -/
def bigSigma1 (x : Nat) : Nat := rotr 6 x ^^^ rotr 11 x ^^^ rotr 25 x

/-- SHA-256 σ₀. -/
def smallSigma0 (x : Nat) : Nat := rotr 7 x ^^^ rotr 18 x ^^^ (x / 2 ^ 3)

/-- SHA-256 σ₁. -/
def smallSigma1 (x : Nat) : Nat := rotr 17 x ^^^ rotr 19 x ^^^ (x / 2 ^ 10)

/-- The 64 SHA-256 round constants. -/
def K256 : List Nat :=
  [1116352408, 1899447441, 3049323471, 3921009573, 961987163,
   1508970993, 2453635748, 2870763221, 3624381080, 310598401,
   607225278, 1426881987, 1925078388, 2162078206, 2614888103,
   3248222580, 3835390401, 4022224774, 264347078, 604807628,
   770255983, 1249150122, 1555081692, 1996064986, 2554220882,
   2821834349, 2952996808, 3210313671, 3336571891, 3584528711,
   113926993, 338241895, 666307205, 773529912, 1294757372,
   1396182291, 1695183700, 1986661051, 2177026350, 2456956037,
   2730485921, 2820302411, 3259730800, 3345764771, 3516065817,
   3600352804, 4094571909, 275423344, 430227734, 506948616,
   659060556, 883997877, 958139571, 1322822218, 1537002063,
   1747873779, 1955562222, 2024104815, 2227730452, 2361852424,
   2428436474, 2756734187, 3204031479, 3329325298]

/-- The SHA-256 initial hash value. -/
def H256 : List Nat :=
  [1779033703, 3144134277, 1013904242, 2773480762, 1359893119,
   2600822924, 528734635, 1541459225]

/-- Big-endian byte decomposition of `v` into `n` bytes. -/
def bytesBE (n v : Nat) : List Nat :=
  (List.range n).map fun i => v / 2 ^ (8 * (n - 1 - i)) % 256

/-- SHA-256 padding: append `0x80`, zeros, and the 64-bit bit length. -/
def shaPad (msg : List Nat) : List Nat :=
  let L := msg.length
  let zeros := (64 + 55 - L % 64) % 64
  msg ++ [0x80] ++ List.replicate zeros 0 ++ bytesBE 8 (8 * L)

/-- Group a padded byte list into big-endian 32-bit words. -/
def toWords : List Nat → List Nat
  | b0 :: b1 :: b2 :: b3 :: rest => (((b0 * 256 + b1) * 256 + b2) * 256 + b3) :: toWords rest
  | _ => []

/-- Split a word list into blocks of 16 words (padded input is always a
multiple of 16 words, so the catch-all only fires on the empty list). -/
def toBlocks : List Nat → List (List Nat)
  | w0 :: w1 :: w2 :: w3 :: w4 :: w5 :: w6 :: w7 ::
    w8 :: w9 :: w10 :: w11 :: w12 :: w13 :: w14 :: w15 :: rest =>
      [w0, w1, w2, w3, w4, w5, w6, w7, w8, w9, w10, w11, w12, w13, w14, w15] :: toBlocks rest
  | _ => []

/-- Extend a 16-word block by `n` further message-schedule words. -/
def extendSchedule : Nat → List Nat → List Nat
  | 0, ws => ws
  | n + 1, ws =>
    let i := ws.length
    let w := (smallSigma1 (ws.getD (i - 2) 0) + ws.getD (i - 7) 0 +
              smallSigma0 (ws.getD (i - 15) 0) + ws.getD (i - 16) 0) % M32
    extendSchedule n (ws ++ [w])

/-- The eight working registers of the SHA-256 compression loop. -/
structure Regs where
  a : Nat
  b : Nat
  c : Nat
  d : Nat
  e : Nat
  f : Nat
  g : Nat
  h : Nat

/-- One round of the SHA-256 compression loop on registers, for a
round-constant/schedule-word pair. -/
def compressStep (r : Regs) (kw : Nat × Nat) : Regs :=
  let t1 := (r.h + bigSigma1 r.e + ch r.e r.f r.g + kw.1 + kw.2) % M32
  let t2 := (bigSigma0 r.a + maj r.a r.b r.c) % M32
  ⟨(t1 + t2) % M32, r.a, r.b, r.c, (r.d + t1) % M32, r.e, r.f, r.g⟩

/-- Process one 16-word block, updating the eight hash words. -/
def processBlock (H : List Nat) (block : List Nat) : List Nat :=
  let ws := extendSchedule 48 block
  let r0 : Regs := ⟨H.getD 0 0, H.getD 1 0, H.getD 2 0, H.getD 3 0,
                    H.getD 4 0, H.getD 5 0, H.getD 6 0, H.getD 7 0⟩
  let r := (K256.zip ws).foldl compressStep r0
  [(H.getD 0 0 + r.a) % M32, (H.getD 1 0 + r.b) % M32, (H.getD 2 0 + r.c) % M32,
   (H.getD 3 0 + r.d) % M32, (H.getD 4 0 + r.e) % M32, (H.getD 5 0 + r.f) % M32,
   (H.getD 6 0 + r.g) % M32, (H.getD 7 0 + r.h) % M32]

/-- Lower-case hexadecimal digit. -/
def hexChar (n : Nat) : Char := if n < 10 then Char.ofNat (48 + n) else Char.ofNat (87 + n)

/-- Eight-hex-character big-endian rendering of a 32-bit word. -/
def toHexWord (w : Nat) : List Char :=
  (List.range 8).map fun i => hexChar (w / 2 ^ (28 - 4 * i) % 16)

/-- Full SHA-256 hex digest of a byte list. -/
def sha256hex (msg : List Nat) : String :=
  let H := (toBlocks (toWords (shaPad msg))).foldl processBlock H256
  ⟨H.foldr (fun w acc => toHexWord w ++ acc) []⟩

/-- UTF-8 bytes of a string; the cache-key strings are pure ASCII, where
UTF-8 bytes coincide with code points. -/
def strBytes (s : String) : List Nat := s.data.map Char.toNat

/-- Python slicing `s[:n]` on a string, expressed on the underlying character list. -/
def strTake (s : String) (n : Nat) : String := ⟨s.data.take n⟩

/-! ## `RouteCache._generate_key` (src/cache/route_cache.py, lines 41-55) -/

/-- Embeds `RouteCache._generate_key`: sort the shopkeeper ids ascending
(Python `sorted`; modelled by insertion sort, which on `Int` with `≤`
produces the unique ascending reordering), render the string
`seller:<seller_id>:shopkeepers:<comma-joined ids>` and take the first 16
hex characters of its SHA-256 digest. -/
def generate_key (seller_id : Int) (shopkeeper_ids : List Int) : String :=
  let sorted_ids := shopkeeper_ids.insertionSort (fun a b => a ≤ b)
  let data := "seller:" ++ toString seller_id ++ ":shopkeepers:" ++
    String.intercalate "," (sorted_ids.map toString)
  strTake (sha256hex (strBytes data)) 16

/-! ## The in-memory route cache (src/cache/route_cache.py)

The Python dict `self._cache` is modelled as an insertion-ordered
association list with (invariantly) unique keys; `datetime.now()` is an
explicit `Int` parameter `now`, and `self.ttl` an `Int` in the same time
unit, so `age < self.ttl` is the exact Python comparison. -/

/-- One value of `self._cache`: the route payload plus the bookkeeping
fields stored by `RouteCache.set`. -/
structure CacheEntry (α : Type) where
  data : α
  timestamp : Int
  last_access : Int
  seller_id : Int
  shopkeeper_count : Nat
deriving DecidableEq

/-- Cache state: the entry table and the statistics counters. -/
structure RouteCache (α : Type) where
  cache : List (String × CacheEntry α)
  ttl : Int
  max_size : Nat
  hits : Nat
  misses : Nat
  invalidations : Nat
deriving DecidableEq

/-- Models `key in dict` / `dict[key]` lookup on the ordered entry table. -/
def findEntry (key : String) : List (String × CacheEntry α) → Option (CacheEntry α)
  | [] => none
  | (k, e) :: rest => if k = key then some e else findEntry key rest

/-- Models `dict[key] = entry` when `key` is already present: replace in place. -/
def updateEntry (key : String) (e : CacheEntry α) (l : List (String × CacheEntry α)) :
    List (String × CacheEntry α) :=
  l.map fun p => if p.1 = key then (key, e) else p

/-- Models `del dict[key]`: drop the (unique) binding of `key`. -/
def eraseKey (key : String) (l : List (String × CacheEntry α)) :
    List (String × CacheEntry α) :=
  l.filter fun p => p.1 ≠ key

/-- Models `dict[key] = entry`: replace in place when present, else append. -/
def insertEntry (key : String) (e : CacheEntry α) (l : List (String × CacheEntry α)) :
    List (String × CacheEntry α) :=
  if (findEntry key l).isSome then updateEntry key e l else l ++ [(key, e)]

/-- Embeds `RouteCache.get` (lines 57-85): on a fresh entry, bump
`last_access` and `hits` and return the payload; on an expired entry,
delete it and fall through to the miss path; on absence, count a miss. -/
def RouteCache.get (c : RouteCache α) (now : Int) (seller_id : Int)
    (shopkeeper_ids : List Int) : Option α × RouteCache α :=
  let key := generate_key seller_id shopkeeper_ids
  match findEntry key c.cache with
  | some cached =>
    let age := now - cached.timestamp
    if age < c.ttl then
      (some cached.data,
       { c with cache := updateEntry key { cached with last_access := now } c.cache,
                hits := c.hits + 1 })
    else
      (none, { c with cache := eraseKey key c.cache, misses := c.misses + 1 })
  | none => (none, { c with misses := c.misses + 1 })

/-- The scan inside Python `min(keys, key=...)`: strict improvement only,
so the first key attaining the minimal `last_access` wins. -/
def oldestGo : List (String × CacheEntry α) → String → Int → String
  | [], bk, _ => bk
  | (k, e) :: rest, bk, bla =>
    if e.last_access < bla then oldestGo rest k e.last_access else oldestGo rest bk bla

/-- Embeds `RouteCache._evict_lru` (lines 109-123): no-op on an empty
table, otherwise delete the entry with the oldest `last_access`. -/
def RouteCache.evict_lru (c : RouteCache α) : RouteCache α :=
  match c.cache with
  | [] => c
  | (k, e) :: rest => { c with cache := eraseKey (oldestGo rest k e.last_access) c.cache }

/-- Embeds `RouteCache.set` (lines 87-107): evict the LRU entry when at
capacity, then store the payload under the generated key with fresh
timestamps. -/
def RouteCache.set (c : RouteCache α) (now : Int) (seller_id : Int)
    (shopkeeper_ids : List Int) (route_data : α) : RouteCache α :=
  let c1 := if c.cache.length ≥ c.max_size then c.evict_lru else c
  let key := generate_key seller_id shopkeeper_ids
  let entry : CacheEntry α :=
    { data := route_data, timestamp := now, last_access := now,
      seller_id := seller_id, shopkeeper_count := shopkeeper_ids.length }
  { c1 with cache := insertEntry key entry c1.cache }

/-- Embeds `RouteCache.invalidate_seller` (lines 125-144): collect the
keys whose entry is owned by `seller_id`, delete each, and add their
number to the invalidation counter. -/
def RouteCache.invalidate_seller (c : RouteCache α) (seller_id : Int) : RouteCache α :=
  let keys_to_delete := (c.cache.filter fun p => p.2.seller_id = seller_id).map Prod.fst
  { c with cache := keys_to_delete.foldl (fun acc k => eraseKey k acc) c.cache,
           invalidations := c.invalidations + keys_to_delete.length }

/-! ## Decimal rounding

Python `round(x, 2)` rounds half to even; the planner's `float` values are
modelled as `ℚ` and its rounding as exact decimal round-half-to-even. -/

/-- The floor of a rational, computed by flooring integer division (the
denominator is positive, so this is the true floor). -/
def qfloor (q : ℚ) : ℤ := q.num.fdiv q.den

/-- Round-half-to-even to an integer. -/
def roundHalfEven (q : ℚ) : ℤ :=
  let f := qfloor q
  let r := q - f
  if r < 1 / 2 then f
  else if 1 / 2 < r then f + 1
  else if f % 2 = 0 then f else f + 1

/-- Models Python `round(x, 2)`: round half to even at the second decimal. -/
def round2 (q : ℚ) : ℚ := (roundHalfEven (q * 100) : ℚ) / 100

/-! ## The route planner (src/routers/routes.py)

`calculate_distance` (lines 34-56) is the haversine formula through
`math.sin`, `math.cos`, `math.sqrt` and `math.atan2`: transcendental
floating-point code with no exact counterpart over `ℚ`, so the planner
functions below take the distance function `dist` as an explicit
parameter, exactly as `calculate_distance` is a separate function in the
source. All theorems below quantify over `dist` (or exhibit a concrete
one for a counterexample). -/

/-- The coordinate data of a `Shopkeeper` row used by the planner. -/
structure Shopkeeper where
  id : Int
  latitude : ℚ
  longitude : ℚ
deriving DecidableEq

/-- One element of the route list built by the planner (the dict with
keys `shopkeeper`, `order`, `distance_from_previous`,
`cumulative_distance`). -/
structure RouteLeg where
  shopkeeper : Shopkeeper
  order : Nat
  distance_from_previous : ℚ
  cumulative_distance : ℚ
deriving DecidableEq

/-- Python truthiness of an `Optional[float]`: `None` and `0.0` are
falsy, every other number is truthy. This is the test
`if start_lat and start_lon:` applies to each operand. -/
def truthy (x : Option ℚ) : Bool :=
  match x with
  | none => false
  | some v => v != 0

/-- The scan of the inner `for shopkeeper in unvisited:` loop of
`nearest_neighbor_route`: starting from the running best (the first
element, since every finite distance beats the initial `inf`), replace it
only on strictly smaller distance, and return the chosen shopkeeper
together with the remaining list (`unvisited.remove(nearest)` removes
exactly the chosen position, the first to attain the minimum). -/
def pickNearest (d2 : Shopkeeper → ℚ) (best : Shopkeeper) :
    List Shopkeeper → Shopkeeper × List Shopkeeper
  | [] => (best, [])
  | y :: ys =>
    if d2 y < d2 best then
      let p := pickNearest d2 y ys
      (p.1, best :: p.2)
    else
      let p := pickNearest d2 best ys
      (p.1, y :: p.2)

/-- The `while unvisited:` loop of `nearest_neighbor_route`
(lines 102-131), with the loop measure (each pass removes one element)
made explicit as `fuel`; callers pass `fuel = unvisited.length`, on which
the loop runs to completion. `cumulative` is the exact running sum the
source accumulates unrounded, `routeLen` the current `len(route)`. -/
def nnAux (dist : ℚ → ℚ → ℚ → ℚ → ℚ) :
    Nat → ℚ → ℚ → List Shopkeeper → ℚ → Nat → List RouteLeg
  | 0, _, _, _, _, _ => []
  | _ + 1, _, _, [], _, _ => []
  | fuel + 1, clat, clon, x :: rest, cumulative, routeLen =>
    let d2 := fun s => dist clat clon s.latitude s.longitude
    let p := pickNearest d2 x rest
    let min_distance := d2 p.1
    { shopkeeper := p.1, order := routeLen + 1,
      distance_from_previous := round2 min_distance,
      cumulative_distance := round2 (cumulative + min_distance) } ::
      nnAux dist fuel p.1.latitude p.1.longitude p.2 (cumulative + min_distance) (routeLen + 1)

/-- Embeds `nearest_neighbor_route` (lines 59-132): empty input gives an
empty route; with a truthy start coordinate pair the greedy loop starts
there; otherwise the first shopkeeper is popped as leg 1 with distance 0
and becomes the current position. -/
def nearest_neighbor_route (dist : ℚ → ℚ → ℚ → ℚ → ℚ) (shopkeepers : List Shopkeeper)
    (start_lat start_lon : Option ℚ) : List RouteLeg :=
  match shopkeepers with
  | [] => []
  | first :: rest =>
    if truthy start_lat && truthy start_lon then
      nnAux dist (first :: rest).length (start_lat.getD 0) (start_lon.getD 0)
        (first :: rest) 0 0
    else
      { shopkeeper := first, order := 1, distance_from_previous := 0,
        cumulative_distance := 0 } ::
        nnAux dist rest.length first.latitude first.longitude rest 0 1

/-- Specification companion to `nnAux` (not itself in the source): the
sequence of exact, unrounded `min_distance` values the greedy loop picks,
in order. -/
def nnRawDists (dist : ℚ → ℚ → ℚ → ℚ → ℚ) :
    Nat → ℚ → ℚ → List Shopkeeper → List ℚ
  | 0, _, _, _ => []
  | _ + 1, _, _, [] => []
  | fuel + 1, clat, clon, x :: rest =>
    let d2 := fun s => dist clat clon s.latitude s.longitude
    let p := pickNearest d2 x rest
    d2 p.1 :: nnRawDists dist fuel p.1.latitude p.1.longitude p.2

/-- Specification companion to `nearest_neighbor_route`: the exact
unrounded leg distances of the whole route (a leading `0` for the popped
first stop when no start point is in effect). -/
def exactLegDistances (dist : ℚ → ℚ → ℚ → ℚ → ℚ) (shopkeepers : List Shopkeeper)
    (start_lat start_lon : Option ℚ) : List ℚ :=
  match shopkeepers with
  | [] => []
  | first :: rest =>
    if truthy start_lat && truthy start_lon then
      nnRawDists dist (first :: rest).length (start_lat.getD 0) (start_lon.getD 0)
        (first :: rest)
    else
      0 :: nnRawDists dist rest.length first.latitude first.longitude rest

/-! ## The API-assisted planner (src/routers/routes.py, lines 139-214)

The `await openroute_client.get_route(...)` call is I/O; its outcome is
passed in as `route_data : Option ApiRouteData` (the client returns
`None` on every failure path: missing key, non-200 status, empty route
list, timeout, or any raised exception — see
src/clients/openroute_client.py lines 69-123). -/

/-- The summary dict returned by `OpenRouteServiceClient.get_route` on
success (the fields the router reads). -/
structure ApiRouteData where
  distance_km : ℚ
  duration_minutes : ℚ
deriving DecidableEq

/-- The coordinate list sent to the API (lines 167-173): the start pair
first when truthy, then every shopkeeper, each as `(longitude, latitude)`. -/
def apiCoordinates (shopkeepers : List Shopkeeper) (start_lat start_lon : Option ℚ) :
    List (ℚ × ℚ) :=
  (if truthy start_lat && truthy start_lon then [(start_lon.getD 0, start_lat.getD 0)] else [])
    ++ shopkeepers.map fun sk => (sk.longitude, sk.latitude)

/-- The `for idx, sk in enumerate(shopkeepers)` back-fill loop for
`idx ≥ 1` (lines 189-212): each leg keeps the input order, its distance is
the geodesic distance from the previous input stop, and the cumulative
sum is accumulated unrounded. -/
def backfillAux (dist : ℚ → ℚ → ℚ → ℚ → ℚ) (prev : Shopkeeper) (cumulative : ℚ)
    (ord : Nat) : List Shopkeeper → List RouteLeg
  | [] => []
  | sk :: rest =>
    let segment_distance := dist prev.latitude prev.longitude sk.latitude sk.longitude
    { shopkeeper := sk, order := ord,
      distance_from_previous := round2 segment_distance,
      cumulative_distance := round2 (cumulative + segment_distance) } ::
      backfillAux dist sk (cumulative + segment_distance) (ord + 1) rest

/-- The whole back-fill loop (lines 186-212): `idx = 0` takes the
distance from the truthy start pair, or `0` without one. -/
def backfillRoute (dist : ℚ → ℚ → ℚ → ℚ → ℚ) (shopkeepers : List Shopkeeper)
    (start_lat start_lon : Option ℚ) : List RouteLeg :=
  match shopkeepers with
  | [] => []
  | first :: rest =>
    let segment_distance :=
      if truthy start_lat && truthy start_lon then
        dist (start_lat.getD 0) (start_lon.getD 0) first.latitude first.longitude
      else 0
    { shopkeeper := first, order := 1,
      distance_from_previous := round2 segment_distance,
      cumulative_distance := round2 segment_distance } ::
      backfillAux dist first segment_distance 2 rest

/-- Embeds `calculate_optimized_route_with_api` (lines 139-214):
without a configured client fall back to `nearest_neighbor_route` tagged
`haversine`; with a client but a failed call (`route_data = none`) fall
back tagged `haversine_fallback`; on success keep the assignment order
and back-fill geodesic distances, tagged `openrouteservice`. -/
def calculate_optimized_route_with_api (dist : ℚ → ℚ → ℚ → ℚ → ℚ)
    (openroute_enabled : Bool) (client_configured : Bool)
    (route_data : Option ApiRouteData) (shopkeepers : List Shopkeeper)
    (start_lat start_lon : Option ℚ) : List RouteLeg × String :=
  if !openroute_enabled || !client_configured then
    (nearest_neighbor_route dist shopkeepers start_lat start_lon, "haversine")
  else
    match route_data with
    | none => (nearest_neighbor_route dist shopkeepers start_lat start_lon, "haversine_fallback")
    | some _ => (backfillRoute dist shopkeepers start_lat start_lon, "openrouteservice")

/-! ## Route statistics (src/routers/routes.py, lines 333-354) -/

/-- The `RouteStatistics` response schema fields computed in
`optimize_route`. -/
structure RouteStatistics where
  total_shopkeepers : Nat
  total_distance_km : ℚ
  estimated_travel_time_hours : ℚ
  estimated_visit_time_hours : ℚ
  estimated_total_time_hours : ℚ
  average_distance_between_stops_km : ℚ
deriving DecidableEq

/-- Embeds the statistics block of `optimize_route` (lines 336-354):
travel time at the assumed 25 km/h, visit time at the assumed 10 minutes
per stop, total as the sum of the two unrounded times, every reported
field rounded to 2 decimals. -/
def optimize_route_statistics (total_distance : ℚ) (numPoints : Nat) : RouteStatistics :=
  let avg_speed_kmh : ℚ := 25
  let visit_time_minutes : ℚ := 10
  let travel_time_hours := total_distance / avg_speed_kmh
  let visit_time_hours := (numPoints * visit_time_minutes) / 60
  let total_time_hours := travel_time_hours + visit_time_hours
  { total_shopkeepers := numPoints,
    total_distance_km := round2 total_distance,
    estimated_travel_time_hours := round2 travel_time_hours,
    estimated_visit_time_hours := round2 visit_time_hours,
    estimated_total_time_hours := round2 total_time_hours,
    average_distance_between_stops_km :=
      round2 (if numPoints ≠ 0 then total_distance / numPoints else 0) }

/-! ## Shared helper definitions for concrete instances -/

/-- Placeholder shopkeeper used as a `getD` default. -/
def dummyShopkeeper : Shopkeeper := ⟨0, 0, 0⟩

/-- Placeholder route leg used as a `getD` default. -/
def dummyLeg : RouteLeg := ⟨dummyShopkeeper, 0, 0, 0⟩

/-- A distance function that is identically zero, for concrete instances. -/
def zeroDist (_ _ _ _ : ℚ) : ℚ := 0

/-- Entry used by concrete cache instances below. -/
def witnessEntry : CacheEntry Nat := ⟨7, 0, 0, 1, 1⟩

/-- A one-entry cache with TTL 10 (time unit abstract) over payload `Nat`. -/
def witnessCache : RouteCache Nat := ⟨[(generate_key 1 [1], witnessEntry)], 10, 1000, 0, 0, 0⟩

/-- Entries for the C4 witness: entry B was created later (timestamp 3
vs 0) but accessed earlier (last_access 3 vs 5), so B is the LRU victim. -/
def lruEntryA : CacheEntry Nat := ⟨1, 0, 5, 1, 1⟩

/-- See `lruEntryA`. -/
def lruEntryB : CacheEntry Nat := ⟨2, 3, 3, 1, 1⟩

/-- A cache at capacity (2 entries, max_size 2) for the C4 witness. -/
def lruCache : RouteCache Nat := ⟨[("a", lruEntryA), ("b", lruEntryB)], 10, 2, 0, 0, 0⟩

/-- Entries owned by sellers 1 and 2 for the C5 witness. -/
def invEntry1 : CacheEntry Nat := ⟨1, 0, 0, 1, 1⟩

/-- See `invEntry1`. -/
def invEntry2 : CacheEntry Nat := ⟨2, 0, 0, 2, 1⟩

/-- A two-seller cache for the C5 witness. -/
def invCache : RouteCache Nat := ⟨[("a", invEntry1), ("b", invEntry2)], 10, 100, 3, 4, 5⟩

/-- Stops for concrete planner instances; coordinates serve only as keys
into the concrete distance assignment `cxDist`. -/
def cxStop1 : Shopkeeper := ⟨1, 1, 1⟩

/-- See `cxStop1`. -/
def cxStop2 : Shopkeeper := ⟨2, 2, 2⟩

/-- See `cxStop1`. -/
def cxStop3 : Shopkeeper := ⟨3, 3, 3⟩

/-- A concrete distance assignment under which the greedy route
`cxStop1 → cxStop2 → cxStop3` has two consecutive exact legs of
0.004 km: each leg rounds to 0.00 but the cumulative 0.008 rounds
to 0.01. -/
def cxDist (lat1 _lon1 lat2 _lon2 : ℚ) : ℚ :=
  if lat1 = 1 ∧ lat2 = 2 then 1 / 250
  else if lat1 = 1 ∧ lat2 = 3 then 1 / 100
  else if lat1 = 2 ∧ lat2 = 3 then 1 / 250
  else 1

/-! # Theorems -/

/-! ## Sorting helper -/

/-- Two multiset-equal integer lists have the same ascending sort. -/
theorem insertionSort_eq_of_perm (l1 l2 : List Int) (h : l1.Perm l2) :
    l1.insertionSort (fun a b => a ≤ b) = l2.insertionSort (fun a b => a ≤ b) := by
  apply List.eq_of_perm_of_sorted (r := fun a b : Int => a ≤ b)
  · exact ((List.perm_insertionSort _ l1).trans h).trans (List.perm_insertionSort _ l2).symm
  · exact List.sorted_insertionSort _ l1
  · exact List.sorted_insertionSort _ l2

/-- Claim C1: for every seller id and any two input lists of shopkeeper
ids that are permutations of each other, `RouteCache._generate_key`
produces the same cache key, so reordering the assignment list never
changes the key. -/
theorem generate_key_perm_invariant (s : Int) (l1 l2 : List Int) (h : l1.Perm l2) :
    generate_key s l1 = generate_key s l2 := by
  unfold generate_key
  rw [insertionSort_eq_of_perm l1 l2 h]

/-- Witness for C1 at seller 7 and the permuted lists `[2, 1]` / `[1, 2]`. -/
theorem generate_key_perm_invariant_witness :
    ([2, 1] : List Int).Perm [1, 2] ∧ generate_key 7 [2, 1] = generate_key 7 [1, 2] :=
  ⟨by decide, generate_key_perm_invariant 7 [2, 1] [1, 2] (by decide)⟩

/-- Counterexample to claim C2: the code sorts but does not deduplicate,
so the duplicate-collapsed list `[1, 2] = dedup [1, 1, 2]` hashes to a
different key than `[1, 1, 2]` (the two SHA-256 digests are computed and
compared by the kernel). -/
theorem generate_key_dedup_counterexample :
    generate_key 1 [1, 1, 2] ≠ generate_key 1 (([1, 1, 2] : List Int).dedup) := by
  decide

/-- Claim C2 (amended): `_generate_key` normalises only the order of the
id list, not its multiplicities: sorting the input first yields the same
key, but duplicates are preserved (see the counterexample). -/
theorem generate_key_sort_invariant (s : Int) (l : List Int) :
    generate_key s l = generate_key s (l.insertionSort (fun a b => a ≤ b)) := by
  unfold generate_key
  rw [List.Sorted.insertionSort_eq (List.sorted_insertionSort _ l)]

/-! ## Association-list lemmas for the cache table -/

/-- A `findEntry` lookup misses exactly when no binding carries the key. -/
theorem findEntry_eq_none {α : Type} (key : String) (l : List (String × CacheEntry α)) :
    findEntry key l = none ↔ ∀ p ∈ l, p.1 ≠ key := by
  induction l with
  | nil => simp [findEntry]
  | cons p rest ih =>
    obtain ⟨k, e⟩ := p
    by_cases h : k = key
    · simp [findEntry, h]
    · simp [findEntry, h, ih]

/-- Deleting a key removes every binding of that key. -/
theorem findEntry_eraseKey {α : Type} (key : String) (l : List (String × CacheEntry α)) :
    findEntry key (eraseKey key l) = none := by
  rw [findEntry_eq_none]
  intro p hp
  simpa using (List.mem_filter.mp hp).2

/-- Deleting some key cannot make a missing key present. -/
theorem findEntry_eraseKey_none {α : Type} (key k : String)
    (l : List (String × CacheEntry α)) (h : findEntry key l = none) :
    findEntry key (eraseKey k l) = none := by
  rw [findEntry_eq_none] at h ⊢
  exact fun p hp => h p (List.mem_filter.mp hp).1

/-- Claim C3: `RouteCache.get` returns `none` exactly when the key is
absent or the entry's age is at least the TTL; an entry strictly younger
than the TTL is returned as a hit; an entry found expired is deleted by
the same `get` call. -/
theorem cache_get_ttl_semantics {α : Type} (c : RouteCache α) (now seller_id : Int)
    (shopkeeper_ids : List Int) :
    ((c.get now seller_id shopkeeper_ids).1 = none ↔
      findEntry (generate_key seller_id shopkeeper_ids) c.cache = none ∨
        ∃ e, findEntry (generate_key seller_id shopkeeper_ids) c.cache = some e ∧
          c.ttl ≤ now - e.timestamp)
    ∧ (∀ e, findEntry (generate_key seller_id shopkeeper_ids) c.cache = some e →
        now - e.timestamp < c.ttl →
        (c.get now seller_id shopkeeper_ids).1 = some e.data)
    ∧ (∀ e, findEntry (generate_key seller_id shopkeeper_ids) c.cache = some e →
        c.ttl ≤ now - e.timestamp →
        findEntry (generate_key seller_id shopkeeper_ids)
          (c.get now seller_id shopkeeper_ids).2.cache = none) := by
  unfold RouteCache.get
  cases hfind : findEntry (generate_key seller_id shopkeeper_ids) c.cache with
  | none => simp [hfind]
  | some e =>
    by_cases hage : now - e.timestamp < c.ttl
    · refine ⟨?_, ?_, ?_⟩
      · simp [hfind, hage, not_le.mpr hage]
      · intro e' he' _
        cases he'
        simp [hfind, hage]
      · intro e' he' hexp
        cases he'
        exact absurd hexp (not_le.mpr hage)
    · refine ⟨?_, ?_, ?_⟩
      · simp [hfind, hage]
        exact not_lt.mp hage
      · intro e' he' hfresh
        cases he'
        exact absurd hfresh hage
      · intro e' he' _
        cases he'
        simpa [hfind, hage] using findEntry_eraseKey (generate_key seller_id shopkeeper_ids) c.cache

/-- Witness for C3: in a TTL-10 cache holding an entry created at time 0,
a `get` at time 20 finds it expired and purges it. -/
theorem cache_get_ttl_semantics_witness :
    findEntry (generate_key 1 [1]) (witnessCache.get 20 1 [1]).2.cache = none :=
  (cache_get_ttl_semantics witnessCache 20 1 [1]).2.2 witnessEntry (by decide) (by decide)

/-! ## LRU eviction -/

/-- The `min(..., key=...)` scan returns either its initial candidate
(and the initial value bounds the whole list) or a key bound in the list
to an entry at most the initial value and minimal over the list. -/
theorem oldestGo_spec {α : Type} (l : List (String × CacheEntry α)) :
    ∀ (bk : String) (bla : Int),
      (oldestGo l bk bla = bk ∧ ∀ p ∈ l, bla ≤ p.2.last_access) ∨
      (∃ e, (oldestGo l bk bla, e) ∈ l ∧ e.last_access ≤ bla ∧
        ∀ p ∈ l, e.last_access ≤ p.2.last_access) := by
  induction l with
  | nil => exact fun bk bla => Or.inl ⟨rfl, by simp⟩
  | cons q rest ih =>
    intro bk bla
    obtain ⟨k, e⟩ := q
    by_cases h : e.last_access < bla
    · rcases ih k e.last_access with ⟨heq, hall⟩ | ⟨e', hmem, hle, hall⟩
      · right
        refine ⟨e, ?_, le_of_lt h, ?_⟩
        · simp only [oldestGo, if_pos h, heq]
          exact List.mem_cons_self _ _
        · intro p hp
          rcases List.mem_cons.mp hp with rfl | hp'
          · exact le_refl _
          · exact hall p hp'
      · right
        refine ⟨e', ?_, le_trans hle (le_of_lt h), ?_⟩
        · simp only [oldestGo, if_pos h]
          exact List.mem_cons_of_mem _ hmem
        · intro p hp
          rcases List.mem_cons.mp hp with rfl | hp'
          · exact hle
          · exact hall p hp'
    · rcases ih bk bla with ⟨heq, hall⟩ | ⟨e', hmem, hle, hall⟩
      · left
        refine ⟨by simp only [oldestGo, if_neg h]; exact heq, ?_⟩
        intro p hp
        rcases List.mem_cons.mp hp with rfl | hp'
        · exact not_lt.mp h
        · exact hall p hp'
      · right
        refine ⟨e', ?_, hle, ?_⟩
        · simp only [oldestGo, if_neg h]
          exact List.mem_cons_of_mem _ hmem
        · intro p hp
          rcases List.mem_cons.mp hp with rfl | hp'
          · exact le_trans hle (not_lt.mp h)
          · exact hall p hp'

/-- On a nonempty table, the scanned key is bound to an entry of
globally minimal `last_access`. -/
theorem oldest_in_cons {α : Type} (k0 : String) (e0 : CacheEntry α)
    (rest : List (String × CacheEntry α)) :
    ∃ e, (oldestGo rest k0 e0.last_access, e) ∈ (k0, e0) :: rest ∧
      ∀ p ∈ (k0, e0) :: rest, e.last_access ≤ p.2.last_access := by
  rcases oldestGo_spec rest k0 e0.last_access with ⟨heq, hall⟩ | ⟨e', hmem, hle, hall⟩
  · refine ⟨e0, ?_, ?_⟩
    · rw [heq]
      exact List.mem_cons_self _ _
    · intro p hp
      rcases List.mem_cons.mp hp with rfl | hp'
      · exact le_refl _
      · exact hall p hp'
  · refine ⟨e', List.mem_cons_of_mem _ hmem, ?_⟩
    intro p hp
    rcases List.mem_cons.mp hp with rfl | hp'
    · exact hle
    · exact hall p hp'

/-- Running `_evict_lru` on a table known to be a cons deletes exactly the
scanned oldest key. -/
theorem evict_lru_cache {α : Type} (c : RouteCache α) (k0 : String) (e0 : CacheEntry α)
    (rest : List (String × CacheEntry α)) (hc : c.cache = (k0, e0) :: rest) :
    c.evict_lru = { c with cache := eraseKey (oldestGo rest k0 e0.last_access) c.cache } := by
  unfold RouteCache.evict_lru
  rw [hc]

/-- A key bound nowhere in the list leaves the list unchanged under
deletion. -/
theorem eraseKey_eq_of_not_mem {α : Type} (k : String)
    (l : List (String × CacheEntry α)) (h : ∀ p ∈ l, p.1 ≠ k) : eraseKey k l = l :=
  List.filter_eq_self.mpr fun p hp => by simpa using h p hp

/-- With unique keys, deleting a present key shrinks the table by one. -/
theorem length_eraseKey_of_mem {α : Type} (k : String) (e : CacheEntry α)
    (l : List (String × CacheEntry α)) (hnodup : (l.map Prod.fst).Nodup)
    (hmem : (k, e) ∈ l) : (eraseKey k l).length + 1 = l.length := by
  induction l with
  | nil => cases hmem
  | cons q rest ih =>
    obtain ⟨k0, e0⟩ := q
    simp only [List.map_cons, List.nodup_cons] at hnodup
    rcases List.mem_cons.mp hmem with heq | hmem2
    · cases heq
      have hrest : eraseKey k rest = rest := by
        apply eraseKey_eq_of_not_mem
        intro p hp hk2
        exact hnodup.1 (hk2 ▸ List.mem_map_of_mem Prod.fst hp)
      have hhead : eraseKey k ((k, e) :: rest) = eraseKey k rest := by
        simp [eraseKey, List.filter_cons]
      rw [hhead, hrest]
      simp
    · by_cases hk : k0 = k
      · exfalso
        apply hnodup.1
        rw [hk]
        exact List.mem_map_of_mem Prod.fst hmem2
      · have := ih hnodup.2 hmem2
        simp only [eraseKey, List.filter_cons] at this ⊢
        simp [hk, ← this]

/-- Claim C4: on a cache holding exactly `max_size` entries (with unique
keys and positive capacity), `set` with a fresh key first evicts exactly
one entry — one whose `last_access` is minimal over all entries,
regardless of creation timestamps — and then appends the new entry, so
the table returns to `max_size` entries. -/
theorem cache_set_lru_eviction {α : Type} (c : RouteCache α) (now seller_id : Int)
    (shopkeeper_ids : List Int) (d : α)
    (hnodup : (c.cache.map Prod.fst).Nodup)
    (hfull : c.cache.length = c.max_size)
    (hpos : 0 < c.max_size)
    (hnew : findEntry (generate_key seller_id shopkeeper_ids) c.cache = none) :
    ∃ k e, (k, e) ∈ c.cache ∧
      (∀ p ∈ c.cache, e.last_access ≤ p.2.last_access) ∧
      (c.set now seller_id shopkeeper_ids d).cache
        = eraseKey k c.cache ++
            [(generate_key seller_id shopkeeper_ids,
              ⟨d, now, now, seller_id, shopkeeper_ids.length⟩)] ∧
      (c.set now seller_id shopkeeper_ids d).cache.length = c.max_size := by
  have hne : c.cache ≠ [] := by
    intro h0
    rw [h0] at hfull
    simp at hfull
    omega
  obtain ⟨q, rest, hc⟩ := List.exists_cons_of_ne_nil hne
  obtain ⟨k0, e0⟩ := q
  obtain ⟨e, hmem, hmin⟩ := oldest_in_cons k0 e0 rest
  have hge : c.cache.length ≥ c.max_size := ge_of_eq hfull
  have hcache : (c.set now seller_id shopkeeper_ids d).cache
      = eraseKey (oldestGo rest k0 e0.last_access) c.cache ++
          [(generate_key seller_id shopkeeper_ids,
            ⟨d, now, now, seller_id, shopkeeper_ids.length⟩)] := by
    unfold RouteCache.set
    rw [if_pos hge, evict_lru_cache c k0 e0 rest hc]
    have hnone : findEntry (generate_key seller_id shopkeeper_ids)
        (eraseKey (oldestGo rest k0 e0.last_access) c.cache) = none :=
      findEntry_eraseKey_none _ _ _ hnew
    simp [insertEntry, hnone]
  refine ⟨oldestGo rest k0 e0.last_access, e, ?_, ?_, hcache, ?_⟩
  · rw [hc]
    exact hmem
  · rw [hc]
    exact hmin
  · rw [hcache, List.length_append]
    have hlen : (eraseKey (oldestGo rest k0 e0.last_access) c.cache).length + 1
        = c.cache.length := by
      apply length_eraseKey_of_mem _ e _ hnodup
      rw [hc]
      exact hmem
    simp only [List.length_singleton]
    omega

/-- Witness for C4: in `lruCache` (at capacity 2), inserting under a
fresh key evicts the minimal-`last_access` entry and restores size 2. -/
theorem cache_set_lru_eviction_witness :
    ((lruCache.cache.map Prod.fst).Nodup ∧ lruCache.cache.length = lruCache.max_size ∧
      0 < lruCache.max_size ∧ findEntry (generate_key 2 [9]) lruCache.cache = none) ∧
    (∃ k e, (k, e) ∈ lruCache.cache ∧
      (∀ p ∈ lruCache.cache, e.last_access ≤ p.2.last_access) ∧
      (lruCache.set 50 2 [9] 7).cache
        = eraseKey k lruCache.cache ++ [(generate_key 2 [9], ⟨7, 50, 50, 2, 1⟩)] ∧
      (lruCache.set 50 2 [9] 7).cache.length = lruCache.max_size) :=
  ⟨⟨by decide, by decide, by decide, by decide⟩,
    cache_set_lru_eviction lruCache 50 2 [9] 7 (by decide) (by decide) (by decide) (by decide)⟩

/-! ## Seller invalidation -/

/-- Folding single-key deletions over a key list filters out exactly the
bindings whose key occurs in that list. -/
theorem foldl_eraseKey_eq_filter {α : Type} (ks : List String) :
    ∀ l : List (String × CacheEntry α),
      ks.foldl (fun acc k => eraseKey k acc) l = l.filter fun p => p.1 ∉ ks := by
  induction ks with
  | nil =>
    intro l
    simp [List.filter_eq_self]
  | cons k ks ih =>
    intro l
    rw [List.foldl_cons, ih (eraseKey k l)]
    unfold eraseKey
    rw [List.filter_filter]
    apply List.filter_congr
    intro p _
    by_cases h1 : p.1 = k <;> by_cases h2 : p.1 ∈ ks <;> simp [h1, h2]

/-- With unique keys, two bindings sharing a key are the same binding. -/
theorem key_unique {α : Type} {l : List (String × CacheEntry α)}
    (hnodup : (l.map Prod.fst).Nodup) {p q : String × CacheEntry α}
    (hp : p ∈ l) (hq : q ∈ l) (hk : p.1 = q.1) : p = q := by
  induction l with
  | nil => cases hp
  | cons r rest ih =>
    simp only [List.map_cons, List.nodup_cons] at hnodup
    rcases List.mem_cons.mp hp with rfl | hp2 <;> rcases List.mem_cons.mp hq with rfl | hq2
    · rfl
    · exfalso
      apply hnodup.1
      rw [hk]
      exact List.mem_map_of_mem Prod.fst hq2
    · exfalso
      apply hnodup.1
      rw [← hk]
      exact List.mem_map_of_mem Prod.fst hp2
    · exact ih hnodup.2 hp2 hq2

/-- Claim C5: `invalidate_seller A` (on a unique-key table) removes
exactly the entries whose stored `seller_id` is `A`, leaves every other
binding unchanged, adds the number of removed entries to the
invalidation counter, and touches no other field. -/
theorem invalidate_seller_scope {α : Type} (c : RouteCache α) (A : Int)
    (hnodup : (c.cache.map Prod.fst).Nodup) :
    (c.invalidate_seller A).cache = c.cache.filter (fun p => p.2.seller_id ≠ A)
    ∧ (c.invalidate_seller A).invalidations
        = c.invalidations + (c.cache.filter (fun p => p.2.seller_id = A)).length
    ∧ (c.invalidate_seller A).ttl = c.ttl
    ∧ (c.invalidate_seller A).max_size = c.max_size
    ∧ (c.invalidate_seller A).hits = c.hits
    ∧ (c.invalidate_seller A).misses = c.misses := by
  have h1 : (c.invalidate_seller A).cache
      = ((c.cache.filter fun p => p.2.seller_id = A).map Prod.fst).foldl
          (fun acc k => eraseKey k acc) c.cache := rfl
  have h2 : (c.invalidate_seller A).invalidations
      = c.invalidations + ((c.cache.filter fun p => p.2.seller_id = A).map Prod.fst).length :=
    rfl
  refine ⟨?_, ?_, rfl, rfl, rfl, rfl⟩
  · rw [h1, foldl_eraseKey_eq_filter]
    apply List.filter_congr
    intro p hp
    have hiff : p.1 ∈ (c.cache.filter fun q => q.2.seller_id = A).map Prod.fst
        ↔ p.2.seller_id = A := by
      constructor
      · intro hmem
        obtain ⟨q, hqmem, hqk⟩ := List.mem_map.mp hmem
        have hq : q ∈ c.cache := (List.mem_filter.mp hqmem).1
        have hpq : p = q := key_unique hnodup hp hq hqk.symm
        have := (List.mem_filter.mp hqmem).2
        rw [hpq]
        simpa using this
      · intro h
        exact List.mem_map_of_mem _ (List.mem_filter.mpr ⟨hp, by simpa using h⟩)
    by_cases h : p.2.seller_id = A <;> simp [hiff, h]
  · rw [h2, List.length_map]

/-- Witness for C5: invalidating seller 1 on `invCache` keeps exactly
the seller-2 entry. -/
theorem invalidate_seller_scope_witness :
    (invCache.cache.map Prod.fst).Nodup ∧
      (invCache.invalidate_seller 1).cache
        = invCache.cache.filter (fun p => p.2.seller_id ≠ 1) :=
  ⟨by decide, (invalidate_seller_scope invCache 1 (by decide)).1⟩

/-! ## Planner length facts -/

/-- The greedy scan never loses stops: the remainder is one shorter than
the scanned list plus the running best. -/
theorem pickNearest_snd_length (d2 : Shopkeeper → ℚ) (best : Shopkeeper)
    (l : List Shopkeeper) : ((pickNearest d2 best l).2).length = l.length := by
  induction l generalizing best with
  | nil => rfl
  | cons y ys ih =>
    by_cases h : d2 y < d2 best <;> simp [pickNearest, h, ih]

/-- With enough fuel (the loop measure), the greedy loop emits exactly
one leg per unvisited stop. -/
theorem nnAux_length (dist : ℚ → ℚ → ℚ → ℚ → ℚ) :
    ∀ (fuel : Nat) (clat clon : ℚ) (u : List Shopkeeper) (cum : ℚ) (base : Nat),
      u.length ≤ fuel → (nnAux dist fuel clat clon u cum base).length = u.length := by
  intro fuel
  induction fuel with
  | zero =>
    intro clat clon u cum base h
    have : u = [] := List.eq_nil_of_length_eq_zero (Nat.le_zero.mp h)
    subst this
    rfl
  | succ n ih =>
    intro clat clon u cum base h
    cases u with
    | nil => rfl
    | cons x rest =>
      have hrest : ((pickNearest (fun s => dist clat clon s.latitude s.longitude) x rest).2).length ≤ n := by
        rw [pickNearest_snd_length]
        simp only [List.length_cons] at h
        omega
      simp only [nnAux, List.length_cons]
      rw [ih _ _ _ _ _ hrest, pickNearest_snd_length]

/-- The function `nearest_neighbor_route` emits one leg per stop. -/
theorem nearest_neighbor_route_length (dist : ℚ → ℚ → ℚ → ℚ → ℚ)
    (shopkeepers : List Shopkeeper) (start_lat start_lon : Option ℚ) :
    (nearest_neighbor_route dist shopkeepers start_lat start_lon).length
      = shopkeepers.length := by
  cases shopkeepers with
  | nil => rfl
  | cons first rest =>
    by_cases h : truthy start_lat && truthy start_lon
    · simp only [nearest_neighbor_route, if_pos h]
      exact nnAux_length _ _ _ _ _ _ _ (le_refl _)
    · simp only [nearest_neighbor_route, if_neg h, List.length_cons]
      rw [nnAux_length _ _ _ _ _ _ _ (le_refl _)]

/-- Claim C6: with the provider configured but its call failing (no
route data returned, whatever the cause), the API-assisted planner
returns exactly the geodesic nearest-neighbor route with the distinct
tag `haversine_fallback`, and for a non-empty stop list that route is
non-empty (one leg per stop) — the failure is absorbed, not surfaced. -/
theorem api_failure_fallback (dist : ℚ → ℚ → ℚ → ℚ → ℚ)
    (shopkeepers : List Shopkeeper) (start_lat start_lon : Option ℚ)
    (hne : shopkeepers ≠ []) :
    calculate_optimized_route_with_api dist true true none shopkeepers start_lat start_lon
      = (nearest_neighbor_route dist shopkeepers start_lat start_lon, "haversine_fallback")
    ∧ (calculate_optimized_route_with_api dist true true none shopkeepers
        start_lat start_lon).1.length = shopkeepers.length
    ∧ (calculate_optimized_route_with_api dist true true none shopkeepers
        start_lat start_lon).1 ≠ [] := by
  have heq : calculate_optimized_route_with_api dist true true none shopkeepers
      start_lat start_lon
      = (nearest_neighbor_route dist shopkeepers start_lat start_lon,
          "haversine_fallback") := rfl
  refine ⟨heq, ?_, ?_⟩
  · rw [heq]
    exact nearest_neighbor_route_length dist shopkeepers start_lat start_lon
  · rw [heq]
    intro h0
    apply hne
    have h1 : nearest_neighbor_route dist shopkeepers start_lat start_lon = [] := h0
    have hlen := nearest_neighbor_route_length dist shopkeepers start_lat start_lon
    rw [h1] at hlen
    exact List.eq_nil_of_length_eq_zero hlen.symm

/-- Witness for C6 on a one-stop list with the zero distance function. -/
theorem api_failure_fallback_witness :
    ([dummyShopkeeper] ≠ ([] : List Shopkeeper)) ∧
      calculate_optimized_route_with_api zeroDist true true none [dummyShopkeeper] none none
        = (nearest_neighbor_route zeroDist [dummyShopkeeper] none none,
            "haversine_fallback") :=
  ⟨by decide, (api_failure_fallback zeroDist [dummyShopkeeper] none none (by decide)).1⟩

/-! ## Incremental rounding structure of the greedy planner -/

/-- Loop invariant of the greedy loop: the `k`-th emitted leg reports
the rounding of its own exact distance, the rounding of the exact
(unrounded) running sum, and order `base + k + 1`. -/
theorem nnAux_getD (dist : ℚ → ℚ → ℚ → ℚ → ℚ) :
    ∀ (fuel : Nat) (clat clon : ℚ) (u : List Shopkeeper) (cum : ℚ) (base : Nat) (k : Nat),
      u.length ≤ fuel → k < u.length →
      ((nnAux dist fuel clat clon u cum base).getD k dummyLeg).cumulative_distance
        = round2 (cum + ((nnRawDists dist fuel clat clon u).take (k + 1)).sum)
      ∧ ((nnAux dist fuel clat clon u cum base).getD k dummyLeg).distance_from_previous
        = round2 ((nnRawDists dist fuel clat clon u).getD k 0)
      ∧ ((nnAux dist fuel clat clon u cum base).getD k dummyLeg).order = base + k + 1 := by
  intro fuel
  induction fuel with
  | zero =>
    intro clat clon u cum base k hf hk
    omega
  | succ n ih =>
    intro clat clon u cum base k hf hk
    cases u with
    | nil => simp at hk
    | cons x rest =>
      simp only [nnAux, nnRawDists]
      cases k with
      | zero =>
        refine ⟨?_, ?_, ?_⟩ <;>
          simp [List.take_succ_cons, List.take_zero, List.sum_cons]
      | succ k =>
        have hrest : ((pickNearest (fun s => dist clat clon s.latitude s.longitude) x
            rest).2).length ≤ n := by
          rw [pickNearest_snd_length]
          simp only [List.length_cons] at hf
          omega
        have hklt : k < ((pickNearest (fun s => dist clat clon s.latitude s.longitude) x
            rest).2).length := by
          rw [pickNearest_snd_length]
          simp only [List.length_cons] at hk
          omega
        obtain ⟨ihc, ihd, iho⟩ := ih _ _ _
          (cum + dist clat clon
            ((pickNearest (fun s => dist clat clon s.latitude s.longitude) x rest).1).latitude
            ((pickNearest (fun s => dist clat clon s.latitude s.longitude) x rest).1).longitude)
          (base + 1) k hrest hklt
        refine ⟨?_, ?_, ?_⟩
        · rw [List.getD_cons_succ, ihc, List.take_succ_cons, List.sum_cons, add_assoc]
        · rw [List.getD_cons_succ, ihd, List.getD_cons_succ]
        · rw [List.getD_cons_succ, iho]
          omega

/-- Claim C7 (amended): in the geodesic nearest-neighbor planner the
reported `cumulative_distance` of leg `k` is `round2` of the *unrounded*
running sum of the exact leg distances 1..k, and each reported
`distance_from_previous` is `round2` of its own exact leg; the sum of the
rounded legs is not, in general, the reported cumulative. -/
theorem nn_cumulative_is_rounding_of_exact_sum (dist : ℚ → ℚ → ℚ → ℚ → ℚ)
    (shopkeepers : List Shopkeeper) (start_lat start_lon : Option ℚ) (k : Nat)
    (hk : k < (nearest_neighbor_route dist shopkeepers start_lat start_lon).length) :
    ((nearest_neighbor_route dist shopkeepers start_lat start_lon).getD k
        dummyLeg).cumulative_distance
      = round2 (((exactLegDistances dist shopkeepers start_lat start_lon).take (k + 1)).sum)
    ∧ ((nearest_neighbor_route dist shopkeepers start_lat start_lon).getD k
        dummyLeg).distance_from_previous
      = round2 ((exactLegDistances dist shopkeepers start_lat start_lon).getD k 0) := by
  rw [nearest_neighbor_route_length] at hk
  cases shopkeepers with
  | nil => simp at hk
  | cons first rest =>
    by_cases h : truthy start_lat && truthy start_lon
    · simp only [nearest_neighbor_route, exactLegDistances, if_pos h]
      obtain ⟨ihc, ihd, _⟩ := nnAux_getD dist (first :: rest).length (start_lat.getD 0)
        (start_lon.getD 0) (first :: rest) 0 0 k (le_refl _) hk
      rw [ihc, ihd, zero_add]
      exact ⟨rfl, rfl⟩
    · simp only [nearest_neighbor_route, exactLegDistances, if_neg h]
      cases k with
      | zero =>
        constructor <;> simp [dummyLeg] <;> decide
      | succ k =>
        have hk2 : k < rest.length := by
          simp only [List.length_cons] at hk
          omega
        obtain ⟨ihc, ihd, _⟩ := nnAux_getD dist rest.length first.latitude
          first.longitude rest 0 1 k (le_refl _) hk2
        constructor
        · rw [List.getD_cons_succ, ihc, List.take_succ_cons, List.sum_cons, zero_add]
        · rw [List.getD_cons_succ, ihd, List.getD_cons_succ]

/-- Counterexample to claim C7 as stated: under `cxDist` the third leg
reports cumulative 0.01 while the rounded legs sum to 0 (exact legs
0, 0.004, 0.004: each rounds to 0, the running sum rounds to 0.01). -/
theorem nn_cumulative_not_sum_of_rounded_legs :
    ((nearest_neighbor_route cxDist [cxStop1, cxStop2, cxStop3] none none).getD 2
        dummyLeg).cumulative_distance
      ≠ (((nearest_neighbor_route cxDist [cxStop1, cxStop2, cxStop3] none none).take 3).map
          (fun l => l.distance_from_previous)).sum := by
  decide

/-- Witness for the amended C7 at the same concrete instance, leg 3. -/
theorem nn_cumulative_is_rounding_of_exact_sum_witness :
    (2 < (nearest_neighbor_route cxDist [cxStop1, cxStop2, cxStop3] none none).length) ∧
      ((nearest_neighbor_route cxDist [cxStop1, cxStop2, cxStop3] none none).getD 2
          dummyLeg).cumulative_distance
        = round2 (((exactLegDistances cxDist [cxStop1, cxStop2, cxStop3] none
            none).take 3).sum) :=
  ⟨by decide,
    (nn_cumulative_is_rounding_of_exact_sum cxDist [cxStop1, cxStop2, cxStop3] none none 2
      (by decide)).1⟩

/-! ## Route statistics -/

/-- Counterexample to claim C8 as stated: the reported visit time for 10
stops is `round(100/60, 2) = 1.67` hours, not the claimed `1.667`. -/
theorem statistics_visit_time_counterexample :
    (optimize_route_statistics 50 10).estimated_visit_time_hours ≠ 1667 / 1000 := by
  decide

/-- Claim C8 (amended): for a freshly computed 10-stop route totaling
50 km, travel time is 2.0 h (50 / 25), visit time is 1.67 h
(100/60 rounded to 2 decimals), and the total is 3.67 h (the unrounded
sum 11/3 rounded to 2 decimals); the average leg is 5 km. -/
theorem statistics_arithmetic_10_stops_50_km :
    optimize_route_statistics 50 10 = ⟨10, 50, 2, 167 / 100, 367 / 100, 5⟩ := by
  decide

/-! ## API-assisted mode preserves assignment order -/

/-- The back-fill loop emits one leg per remaining stop. -/
theorem backfillAux_length (dist : ℚ → ℚ → ℚ → ℚ → ℚ) :
    ∀ (l : List Shopkeeper) (prev : Shopkeeper) (cum : ℚ) (ord : Nat),
      (backfillAux dist prev cum ord l).length = l.length := by
  intro l
  induction l with
  | nil => intro prev cum ord; rfl
  | cons sk rest ih =>
    intro prev cum ord
    simp only [backfillAux, List.length_cons, ih]

/-- The back-filled route has one leg per stop. -/
theorem backfillRoute_length (dist : ℚ → ℚ → ℚ → ℚ → ℚ)
    (shopkeepers : List Shopkeeper) (start_lat start_lon : Option ℚ) :
    (backfillRoute dist shopkeepers start_lat start_lon).length = shopkeepers.length := by
  cases shopkeepers with
  | nil => rfl
  | cons first rest =>
    simp only [backfillRoute, List.length_cons, backfillAux_length]

/-- Loop invariant of the back-fill loop for entries after the first:
stop `k` of the remainder keeps its input position, gets order
`ord + k`, and carries the rounded geodesic distance from the previous
input stop (which is `prev` for `k = 0`). -/
theorem backfillAux_getD (dist : ℚ → ℚ → ℚ → ℚ → ℚ) :
    ∀ (l : List Shopkeeper) (prev : Shopkeeper) (cum : ℚ) (ord : Nat) (k : Nat),
      k < l.length →
      ((backfillAux dist prev cum ord l).getD k dummyLeg).shopkeeper
        = l.getD k dummyShopkeeper
      ∧ ((backfillAux dist prev cum ord l).getD k dummyLeg).order = ord + k
      ∧ ((backfillAux dist prev cum ord l).getD k dummyLeg).distance_from_previous
        = round2 (dist ((prev :: l).getD k dummyShopkeeper).latitude
            ((prev :: l).getD k dummyShopkeeper).longitude
            (l.getD k dummyShopkeeper).latitude
            (l.getD k dummyShopkeeper).longitude) := by
  intro l
  induction l with
  | nil =>
    intro prev cum ord k hk
    simp at hk
  | cons sk rest ih =>
    intro prev cum ord k hk
    simp only [backfillAux]
    cases k with
    | zero => refine ⟨?_, ?_, ?_⟩ <;> simp
    | succ k =>
      have hk2 : k < rest.length := by
        simp only [List.length_cons] at hk
        omega
      obtain ⟨ih1, ih2, ih3⟩ := ih sk
        (cum + dist prev.latitude prev.longitude sk.latitude sk.longitude) (ord + 1) k hk2
      refine ⟨?_, ?_, ?_⟩
      · rw [List.getD_cons_succ, ih1, List.getD_cons_succ]
      · rw [List.getD_cons_succ, ih2]
        omega
      · rw [List.getD_cons_succ, ih3, List.getD_cons_succ, List.getD_cons_succ]

/-- Claim C9: when the provider call succeeds, the planner performs no
nearest-neighbor reordering: stop `k` of the input list appears at
position `k` with order `k + 1`, each leg after the first carrying the
rounded geodesic distance between consecutive input stops, all under the
tag `openrouteservice`. -/
theorem api_success_preserves_order (dist : ℚ → ℚ → ℚ → ℚ → ℚ) (rd : ApiRouteData)
    (shopkeepers : List Shopkeeper) (start_lat start_lon : Option ℚ) (k : Nat)
    (hk : k < shopkeepers.length) :
    calculate_optimized_route_with_api dist true true (some rd) shopkeepers
        start_lat start_lon
      = (backfillRoute dist shopkeepers start_lat start_lon, "openrouteservice")
    ∧ (backfillRoute dist shopkeepers start_lat start_lon).length = shopkeepers.length
    ∧ ((backfillRoute dist shopkeepers start_lat start_lon).getD k dummyLeg).shopkeeper
        = shopkeepers.getD k dummyShopkeeper
    ∧ ((backfillRoute dist shopkeepers start_lat start_lon).getD k dummyLeg).order = k + 1
    ∧ (∀ j, k = j + 1 →
        ((backfillRoute dist shopkeepers start_lat start_lon).getD k
            dummyLeg).distance_from_previous
          = round2 (dist (shopkeepers.getD j dummyShopkeeper).latitude
              (shopkeepers.getD j dummyShopkeeper).longitude
              (shopkeepers.getD k dummyShopkeeper).latitude
              (shopkeepers.getD k dummyShopkeeper).longitude)) := by
  refine ⟨rfl, backfillRoute_length dist shopkeepers start_lat start_lon, ?_⟩
  cases shopkeepers with
  | nil => simp at hk
  | cons first rest =>
    simp only [backfillRoute]
    cases k with
    | zero =>
      refine ⟨by simp, by simp, ?_⟩
      intro j hj
      omega
    | succ k =>
      have hk2 : k < rest.length := by
        simp only [List.length_cons] at hk
        omega
      obtain ⟨ih1, ih2, ih3⟩ := backfillAux_getD dist rest first
        (if truthy start_lat && truthy start_lon then
          dist (start_lat.getD 0) (start_lon.getD 0) first.latitude first.longitude
        else 0) 2 k hk2
      refine ⟨?_, ?_, ?_⟩
      · rw [List.getD_cons_succ, ih1, List.getD_cons_succ]
      · rw [List.getD_cons_succ, ih2]
        omega
      · intro j hj
        cases hj
        rw [List.getD_cons_succ, ih3, List.getD_cons_succ]

/-- Witness for C9 at two concrete stops, leg 2. -/
theorem api_success_preserves_order_witness :
    (1 < ([cxStop1, cxStop2] : List Shopkeeper).length) ∧
      ((backfillRoute cxDist [cxStop1, cxStop2] none none).getD 1 dummyLeg).order = 1 + 1 :=
  ⟨by decide,
    (api_success_preserves_order cxDist ⟨1, 1⟩ [cxStop1, cxStop2] none none 1
      (by decide)).2.2.2.1⟩

/-! ## Zero start coordinates are treated as absent -/

/-- Zero latitude is falsy: the geodesic planner ignores the start pair. -/
theorem nn_route_zero_lat (dist : ℚ → ℚ → ℚ → ℚ → ℚ) (sks : List Shopkeeper)
    (lon0 : Option ℚ) :
    nearest_neighbor_route dist sks (some 0) lon0
      = nearest_neighbor_route dist sks none lon0 := by
  cases sks with
  | nil => rfl
  | cons f r => simp [nearest_neighbor_route, truthy]

/-- Zero longitude is falsy: the geodesic planner ignores the start pair. -/
theorem nn_route_zero_lon (dist : ℚ → ℚ → ℚ → ℚ → ℚ) (sks : List Shopkeeper)
    (lat0 : Option ℚ) :
    nearest_neighbor_route dist sks lat0 (some 0)
      = nearest_neighbor_route dist sks lat0 none := by
  cases sks with
  | nil => rfl
  | cons f r => simp [nearest_neighbor_route, truthy]

/-- Zero latitude is falsy for the back-fill loop as well. -/
theorem backfill_zero_lat (dist : ℚ → ℚ → ℚ → ℚ → ℚ) (sks : List Shopkeeper)
    (lon0 : Option ℚ) :
    backfillRoute dist sks (some 0) lon0 = backfillRoute dist sks none lon0 := by
  cases sks with
  | nil => rfl
  | cons f r => simp [backfillRoute, truthy]

/-- Zero longitude is falsy for the back-fill loop as well. -/
theorem backfill_zero_lon (dist : ℚ → ℚ → ℚ → ℚ → ℚ) (sks : List Shopkeeper)
    (lat0 : Option ℚ) :
    backfillRoute dist sks lat0 (some 0) = backfillRoute dist sks lat0 none := by
  cases sks with
  | nil => rfl
  | cons f r => simp [backfillRoute, truthy]

/-- Claim C10 (implicit behavior): a start coordinate whose latitude or
longitude is `0.0` is falsy under Python truthiness, so the geodesic
planner, the API-assisted planner, and the coordinate list sent to the
provider all behave exactly as if no start coordinate were given; in
particular the first input stop becomes leg 1 with distance 0. -/
theorem zero_start_coordinate_ignored (dist : ℚ → ℚ → ℚ → ℚ → ℚ)
    (shopkeepers : List Shopkeeper) (lat0 lon0 : Option ℚ)
    (route_data : Option ApiRouteData) (enabled configured : Bool) :
    nearest_neighbor_route dist shopkeepers (some 0) lon0
      = nearest_neighbor_route dist shopkeepers none lon0
    ∧ nearest_neighbor_route dist shopkeepers lat0 (some 0)
      = nearest_neighbor_route dist shopkeepers lat0 none
    ∧ calculate_optimized_route_with_api dist enabled configured route_data shopkeepers
        (some 0) lon0
      = calculate_optimized_route_with_api dist enabled configured route_data shopkeepers
          none lon0
    ∧ calculate_optimized_route_with_api dist enabled configured route_data shopkeepers
        lat0 (some 0)
      = calculate_optimized_route_with_api dist enabled configured route_data shopkeepers
          lat0 none
    ∧ apiCoordinates shopkeepers (some 0) lon0 = apiCoordinates shopkeepers none lon0
    ∧ apiCoordinates shopkeepers lat0 (some 0) = apiCoordinates shopkeepers lat0 none
    ∧ (∀ first rest, shopkeepers = first :: rest →
        (nearest_neighbor_route dist shopkeepers (some 0) lon0).getD 0 dummyLeg
          = ⟨first, 1, 0, 0⟩) := by
  refine ⟨nn_route_zero_lat dist shopkeepers lon0, nn_route_zero_lon dist shopkeepers lat0,
    ?_, ?_, ?_, ?_, ?_⟩
  · unfold calculate_optimized_route_with_api
    rw [nn_route_zero_lat, backfill_zero_lat]
  · unfold calculate_optimized_route_with_api
    rw [nn_route_zero_lon, backfill_zero_lon]
  · simp [apiCoordinates, truthy]
  · simp [apiCoordinates, truthy]
  · intro first rest hsk
    subst hsk
    rw [nn_route_zero_lat]
    simp [nearest_neighbor_route, truthy]

/-- Witness for C10: with a zero-latitude start the first stop is leg 1
at distance 0. -/
theorem zero_start_coordinate_ignored_witness :
    (nearest_neighbor_route zeroDist [cxStop1] (some 0) (some 5)).getD 0 dummyLeg
      = ⟨cxStop1, 1, 0, 0⟩ :=
  (zero_start_coordinate_ignored zeroDist [cxStop1] (some 3) (some 5) none true
      true).2.2.2.2.2.2 cxStop1 [] rfl

end MSUser
